import Mathlib

/-!
Shallow embedding of the resume-analysis core of `backend/main.py`
(Resume-Analyzer).  Python strings are modelled as `List Char`; `str.lower`,
`str.strip`, `str.splitlines`, substring containment and the three `re`
patterns used by the code are modelled character by character.  All
definitions are executable and follow the source line by line; the regex
`EDUCATION\s*\n(?:.*\n){0,3}(.*?)(\n(?:...)|$)` (compiled with
`re.DOTALL | re.IGNORECASE`) is modelled by a specialised matcher whose
pieces correspond one-to-one to the pieces of the pattern.
-/

namespace ResumeAnalyzer

/-- Model of Python `str.lower` for one character (ASCII case mapping, which
is all the source's vocabulary and headers use). -/
def pyLower (c : Char) : Char := c.toLower

/-- Model of Python's whitespace class (`\s`, `str.strip`) restricted to the
ASCII whitespace characters. -/
def pyIsSpace (c : Char) : Bool :=
  c == ' ' || c == '\t' || c == '\n' || c == '\r' || c == '\x0b' || c == '\x0c'

/-- Model of Python `str.strip()`: drop leading and trailing whitespace. -/
def pyStrip (s : List Char) : List Char :=
  ((s.dropWhile pyIsSpace).reverse.dropWhile pyIsSpace).reverse

/-- Exact (case-sensitive) literal match at the head of a string. -/
def beginsWith : List Char → List Char → Bool
  | [], _ => true
  | _ :: _, [] => false
  | p :: ps, c :: cs => (p == c) && beginsWith ps cs

/-- Model of Python's substring containment `pat in s`. -/
def containsSeq (pat : List Char) : List Char → Bool
  | [] => pat.isEmpty
  | c :: rest => beginsWith pat (c :: rest) || containsSeq pat rest

/-- Case-insensitive literal match at the head of a string: how a plain word
inside a pattern compiled with `re.IGNORECASE` matches. -/
def caselessBeginsWith : List Char → List Char → Bool
  | [], _ => true
  | _ :: _, [] => false
  | p :: ps, c :: cs => (pyLower p == pyLower c) && caselessBeginsWith ps cs

/-- Model of Python `str.splitlines` (with `\n` as the line terminator, the
only terminator occurring in the analysed texts): split on `\n`, without a
trailing empty piece when the string ends in `\n`. -/
def splitOnNl : List Char → List (List Char)
  | [] => [[]]
  | c :: cs =>
    if c == '\n' then [] :: splitOnNl cs
    else
      match splitOnNl cs with
      | [] => [[c]]
      | p :: ps => (c :: p) :: ps

/-- See `splitOnNl`; the empty string yields no lines, as in Python. -/
def splitlinesLC (s : List Char) : List (List Char) :=
  match s with
  | [] => []
  | _ => if s.getLast? == some '\n' then (splitOnNl s).dropLast else splitOnNl s

/-- Model of Python `", ".join`-style joining. -/
def joinLC (sep : List Char) : List (List Char) → List Char
  | [] => []
  | [x] => x
  | x :: y :: rest => x ++ sep ++ joinLC sep (y :: rest)

/-- Model of Python `line.lstrip('•')`: remove every leading bullet. -/
def dropBullets (l : List Char) : List Char :=
  l.dropWhile (fun c => c == '•')

/-!
### The section regex

`extract_section_by_header` builds
`rf"{header}\s*\n(?:.*\n){{0,3}}(.*?)(\n(?:T1|...|Tk)|$)"` and runs
`re.search(pattern, text, re.DOTALL | re.IGNORECASE)`.  Because of
`re.DOTALL`, `.` matches `\n` as well.  Every choice the backtracking engine
makes resolves locally, because the tail of the pattern after any prefix
always matches: `(?:.*\n){0,3}` admits zero iterations, `(.*?)` is
unbounded, and `$` matches at the end of the input.  Hence:

* the match starts at the leftmost position where the literal `header`
  (case-insensitively) followed by `\s*\n` matches;
* `\s*\n` (greedy `\s*`, then backtracking to make the final `\n` fit)
  consumes up to and including the last newline of the whitespace run that
  follows the header;
* `(?:.*\n){0,3}` is greedy and `.` matches newlines, so its first
  iteration consumes through the last `\n` of the remaining text; a second
  iteration then finds no `\n` left and the quantifier stops — so the
  "filler" consumes everything up to and including the last newline of the
  input (or nothing, when no newline remains);
* `(.*?)` grows lazily until `\n(?:T1|...|Tk)` matches at the current
  position or `$` does (end of input, or just before a final newline).
-/

/-- Model of matching `\s*\n` at the head of `s` (greedy `\s*`, backtracking
so that the trailing `\n` matches the last newline of the whitespace run):
returns the suffix after the consumed part, or `none` when the whitespace
run that starts `s` contains no newline. -/
def wsThenNewline : List Char → Option (List Char)
  | [] => none
  | c :: cs =>
    if pyIsSpace c then
      match wsThenNewline cs with
      | some t => some t
      | none => if c == '\n' then some cs else none
    else none

/-- Model of the greedy filler `(?:.*\n){0,3}` under `re.DOTALL`: consume
through the last newline of the remaining text (nothing when there is no
newline). -/
def afterLastNewline : List Char → List Char
  | [] => []
  | c :: cs => if cs.contains '\n' then afterLastNewline cs
               else if c == '\n' then cs else c :: cs

/-- Model of `(.*?)(\n(?:T1|...|Tk)|$)`: lazily extend group 1 until a
newline followed by a terminator matches, or `$` matches (end of input, or
just before a final newline); returns group 1. -/
def lazyGroupCapture (terms : List (List Char)) : List Char → List Char
  | [] => []
  | c :: cs =>
    if c == '\n' && terms.any (fun t => caselessBeginsWith t cs) then []
    else if c == '\n' && cs.isEmpty then []
    else c :: lazyGroupCapture terms cs

/-- Attempt the whole pattern at one start position; `some` holds group 1. -/
def matchSectionAt (header : List Char) (terms : List (List Char))
    (s : List Char) : Option (List Char) :=
  if caselessBeginsWith header s then
    match wsThenNewline (s.drop header.length) with
    | some t => some (lazyGroupCapture terms (afterLastNewline t))
    | none => none
  else none

/-- Model of `re.search`: try each start position from the left. -/
def searchSection (header : List Char) (terms : List (List Char)) :
    List Char → Option (List Char)
  | [] => matchSectionAt header terms []
  | c :: cs =>
    match matchSectionAt header terms (c :: cs) with
    | some g => some g
    | none => searchSection header terms cs

/-- `extract_section_by_header` from `backend/main.py` (lines 62-77). -/
def extract_section_by_header (text header : List Char)
    (next_headers : List (List Char)) : List (List Char) :=
  match searchSection header next_headers text with
  | some g =>
    let section_text := pyStrip g
    let lines := (splitlinesLC section_text).filterMap
      (fun line => let t := pyStrip line; if t.isEmpty then none else some t)
    if lines.isEmpty then [] else lines
  | none => []

/-!
### The contact-info regex and the year regex
-/

/-- The character class `[\d\- ]` of the phone pattern. -/
def phoneSep (c : Char) : Bool := c.isDigit || c == '-' || c == ' '

/-- Matching `\d[\d\- ]{7,}` at the head of a string: a digit followed by at
least 7 digit, dash or space characters. -/
def phoneBody : List Char → Bool
  | [] => false
  | c :: cs => c.isDigit && 7 ≤ (cs.takeWhile phoneSep).length

/-- Matching `\+?\d[\d\- ]{7,}` at the head of a string (the `\+?` is an
optional literal plus: the engine tries consuming a `+` first and falls back
to the empty alternative). -/
def phoneAt : List Char → Bool
  | [] => phoneBody []
  | c :: cs => ((c == '+') && phoneBody cs) || phoneBody (c :: cs)

/-- Model of `re.search(r'\+?\d[\d\- ]{7,}', s)`: try every position. -/
def hasPhoneRun : List Char → Bool
  | [] => false
  | c :: cs => phoneAt (c :: cs) || hasPhoneRun cs

/-- Model of `re.search(r"(19|20)\\d{2}", line)`.  The pattern is
double-escaped: the regex engine receives `(19|20)\\d{2}`, i.e. `19` or `20`
followed by a literal backslash and two literal letters `d` — it can never
match a real four-digit year. -/
def hasYearToken (line : List Char) : Bool :=
  containsSeq ("19\\dd".toList) line || containsSeq ("20\\dd".toList) line

/-- `is_contact_info` from `backend/main.py` (lines 80-88). -/
def is_contact_info (line : List Char) : Bool :=
  let line_lower := line.map pyLower
  line_lower.contains '@' ||
  containsSeq ("linkedin".toList) line_lower ||
  hasPhoneRun line_lower ||
  containsSeq ("ambiti dhanush raj".toList) line_lower

/-!
### Vocabulary and the extractors
-/

/-- `SKILL_SET` from `backend/main.py` (lines 11-17): the elements of the
Python `set` literal, listed in the order the literal is written.  CPython
leaves the iteration order of a `set` of strings unspecified (string hashing
is randomized per process), so the written order is only one of the possible
iteration orders; `extract_skills_iter` below takes the iteration order as
an explicit parameter, and `extract_skills` is its written-order instance. -/
def SKILL_SET : List (List Char) :=
  ["python".toList, "java".toList, "c++".toList, "machine learning".toList,
   "data analysis".toList, "css".toList, "javascript".toList,
   "node.js".toList, "html".toList, "sql".toList, "git".toList,
   "github".toList, "react".toList, "angular".toList, "docker".toList,
   "aws".toList, "azure".toList, "linux".toList, "tensorflow".toList,
   "keras".toList, "pandas".toList, "numpy".toList, "scikit-learn".toList,
   "flask".toList, "django".toList, "excel".toList, "power bi".toList,
   "tableau".toList, "communication".toList, "leadership".toList,
   "project management".toList]

/-- The loop of `extract_skills` (`for skill in SKILL_SET`) with the set's
iteration order made explicit: `order` is whatever sequence the runtime set
iteration yields (any enumeration of the set's elements, each exactly once);
the loop appends each entry whose lowercase form occurs in the lowercased
text. -/
def extract_skills_iter (order : List (List Char)) (text : List Char) :
    List (List Char) :=
  let text_lower := text.map pyLower
  order.filter (fun skill => containsSeq (skill.map pyLower) text_lower)

/-- `extract_skills` from `backend/main.py` (lines 54-60), instantiated with
the written order of the set literal. -/
def extract_skills (text : List Char) : List (List Char) :=
  let text_lower := text.map pyLower
  SKILL_SET.filter (fun skill => containsSeq (skill.map pyLower) text_lower)

/-- A second possible iteration order of the same set: the written order
with its first two elements exchanged.  CPython guarantees nothing about
which enumeration of the set a given process produces, so this order is as
legitimate as the written one. -/
def SKILL_SET_swapped : List (List Char) :=
  "java".toList :: "python".toList :: SKILL_SET.drop 2

/-- `degree_keywords` from `extract_education` (line 97). -/
def degree_keywords : List (List Char) :=
  ["bachelor".toList, "master".toList, "phd".toList, "b.tech".toList,
   "m.tech".toList, "b.sc".toList, "m.sc".toList, "intermediate".toList,
   "grade".toList, "university".toList, "college".toList, "school".toList]

/-- `extract_education` from `backend/main.py` (lines 90-104). -/
def extract_education (text : List Char) : List (List Char) :=
  (extract_section_by_header text ("EDUCATION".toList)
    ["CERTIFICATIONS".toList, "PROJECTS".toList,
     "KEY SKILLS AND TOOLS".toList, "CAREER OBJECTIVE".toList]).filterMap
    (fun line =>
      if is_contact_info line then none
      else if degree_keywords.any (fun w => containsSeq w (line.map pyLower))
              || hasYearToken line
      then some (pyStrip line) else none)

/-- `exp_keywords` from `extract_experience` (line 113). -/
def exp_keywords : List (List Char) :=
  ["project".toList, "developed".toList, "implemented".toList,
   "machine learning".toList, "web app".toList, "description".toList,
   "kaggle".toList, "intern".toList, "engineer".toList, "developer".toList,
   "role".toList, "position".toList]

/-- `extract_experience` from `backend/main.py` (lines 106-120). -/
def extract_experience (text : List Char) : List (List Char) :=
  (extract_section_by_header text ("PROJECTS".toList)
    ["EDUCATION".toList, "CERTIFICATIONS".toList,
     "KEY SKILLS AND TOOLS".toList, "CAREER OBJECTIVE".toList]).filterMap
    (fun line =>
      if is_contact_info line then none
      else if exp_keywords.any (fun w => containsSeq w (line.map pyLower))
              || hasYearToken line
      then some (pyStrip (dropBullets line)) else none)

/-- `cert_keywords` from `extract_certifications` (line 129). -/
def cert_keywords : List (List Char) :=
  ["certified".toList, "certification".toList, "certificate".toList,
   "coursera".toList, "udemy".toList, "infosys".toList, "exam".toList,
   "award".toList]

/-- `extract_certifications` from `backend/main.py` (lines 122-136). -/
def extract_certifications (text : List Char) : List (List Char) :=
  (extract_section_by_header text ("CERTIFICATIONS".toList)
    ["EDUCATION".toList, "PROJECTS".toList,
     "KEY SKILLS AND TOOLS".toList, "CAREER OBJECTIVE".toList]).filterMap
    (fun line =>
      if is_contact_info line then none
      else if cert_keywords.any (fun w => containsSeq w (line.map pyLower))
      then some (pyStrip (dropBullets line)) else none)

/-!
### Scoring, recommendation, orchestration
-/

/-- The running total of `score_resume` before the floor rule (lines
139-150): 8 points per skill up to 10 skills, plus 5 for each non-empty
category. -/
def score_base (skills education experience certifications :
    List (List Char)) : Nat :=
  min skills.length 10 * 8
    + (if education.isEmpty then 0 else 5)
    + (if experience.isEmpty then 0 else 5)
    + (if certifications.isEmpty then 0 else 5)

/-- `score_resume` from `backend/main.py` (lines 138-154): the floor rule
(`if score < 60 and skills: score = 60`) applies to the running total, and
the result is `min(score, 100)` paired with the always-empty issues list. -/
def score_resume (skills education experience certifications :
    List (List Char)) : Nat × List (List Char) :=
  (min (if score_base skills education experience certifications < 60
          ∧ ¬ skills.isEmpty
        then 60
        else score_base skills education experience certifications) 100, [])

/-- The recommendation step inlined in `analyze_resume` (lines 161-163). -/
def recommendation_of (skills : List (List Char)) : List (List Char) :=
  if skills.length > 0 then
    ["Based on your skills in ".toList
      ++ joinLC (", ".toList) (skills.take 3)
      ++ ", consider roles in Software Development".toList]
  else []

/-- The `ResumeAnalysis` model (lines 35-42).  The `Optional` fields are
always populated by `analyze_resume`, so they are plain fields here. -/
structure ResumeAnalysis where
  skills : List (List Char)
  education : List (List Char)
  experience : List (List Char)
  certifications : List (List Char)
  recommendations : List (List Char)
  score : Nat
  issues : List (List Char)
  deriving DecidableEq

/-- `analyze_resume` from `backend/main.py` (lines 156-173). -/
def analyze_resume (text : List Char) : ResumeAnalysis :=
  let skills := extract_skills text
  let education := extract_education text
  let experience := extract_experience text
  let certifications := extract_certifications text
  let recommendations := recommendation_of skills
  let sc := score_resume skills education experience certifications
  { skills := skills, education := education, experience := experience,
    certifications := certifications, recommendations := recommendations,
    score := sc.1, issues := sc.2 }

/-!
### Spec-side definition for the amended contact-filter claim
-/

/-- Written from the amended wording of the contact-filter claim: some
position of the line holds a digit immediately followed by at least 7
characters each of which is a digit, dash or space (so at least 8 characters
in total; a bare 7-digit run does not qualify). -/
def digitRunAmended : List Char → Bool
  | [] => false
  | c :: cs =>
    (c.isDigit && 7 ≤ (cs.takeWhile phoneSep).length) || digitRunAmended cs

/-- The ContactLineFilter as the amended claim describes it: an `@`, the
substring "linkedin" (case-insensitive), a digit followed by at least 7
digit/dash/space characters, or the hardcoded name. -/
def contact_amended (line : List Char) : Bool :=
  let line_lower := line.map pyLower
  line_lower.contains '@' ||
  containsSeq ("linkedin".toList) line_lower ||
  digitRunAmended line_lower ||
  containsSeq ("ambiti dhanush raj".toList) line_lower

/-!
### Helper lemmas
-/

/-- Unfolding the per-line loop shared by the three category extractors: an
element of the output comes from a section line that the contact filter let
through and that the keep-rule accepted, transformed by `tr`. -/
theorem mem_extractor_filterMap (lines : List (List Char))
    (keep : List Char → Bool) (tr : List Char → List Char) (e : List Char)
    (he : e ∈ lines.filterMap (fun line =>
      if is_contact_info line then none
      else if keep line then some (tr line) else none)) :
    ∃ l, l ∈ lines ∧ is_contact_info l = false ∧ keep l = true ∧ e = tr l := by
  rcases List.mem_filterMap.mp he with ⟨l, hl, hf⟩
  by_cases hc : is_contact_info l
  · rw [if_pos hc] at hf
    simp at hf
  · rw [if_neg hc] at hf
    by_cases hk : keep l
    · rw [if_pos hk] at hf
      exact ⟨l, hl, by simpa using hc, hk, (Option.some.inj hf).symm⟩
    · rw [if_neg hk] at hf
      simp at hf

/-- `score_resume` caps its first component at 100 by construction. -/
theorem score_resume_fst_le (a b c d : List (List Char)) :
    (score_resume a b c d).1 ≤ 100 := by
  unfold score_resume
  exact Nat.min_le_right _ _

/-- The `\+?` of the phone pattern never affects whether a match exists
somewhere in the line, so the searched pattern agrees with the plain
digit-run shape. -/
theorem hasPhoneRun_eq_digitRunAmended (s : List Char) :
    hasPhoneRun s = digitRunAmended s := by
  induction s with
  | nil => rfl
  | cons c cs ih =>
    have hmono : phoneBody cs = true → digitRunAmended cs = true := by
      cases cs with
      | nil => intro h; simp [phoneBody] at h
      | cons d ds =>
        intro h
        have hd : digitRunAmended (d :: ds)
            = (phoneBody (d :: ds) || digitRunAmended ds) := rfl
        rw [hd, h, Bool.true_or]
    have h1 : hasPhoneRun (c :: cs) = (phoneAt (c :: cs) || hasPhoneRun cs) := rfl
    have h2 : digitRunAmended (c :: cs)
        = (phoneBody (c :: cs) || digitRunAmended cs) := rfl
    have h3 : phoneAt (c :: cs)
        = (((c == '+') && phoneBody cs) || phoneBody (c :: cs)) := rfl
    rw [h1, h3, h2, ih]
    cases hp : phoneBody cs with
    | true =>
      rw [hmono hp, Bool.or_true, Bool.or_true]
    | false =>
      rw [Bool.and_false, Bool.false_or]

/-!
### The claims
-/

/-- Claim C1: for all lists `skills`, `education`, `experience`,
`certifications`, the scoring engine returns the claimed closed form — 8
points per skill capped at 10 counted skills, plus 5 per non-empty category,
raised to exactly 60 when the total is below 60 and `skills` is non-empty,
capped at 100 — so the score is always at most 100, is at least 60 whenever
`skills` is non-empty, and the returned issues list is always empty. -/
theorem C1_score_resume_spec (sk ed ex ce : List (List Char)) :
    score_resume sk ed ex ce =
      (if min sk.length 10 * 8 + (if ed = [] then 0 else 5)
            + (if ex = [] then 0 else 5) + (if ce = [] then 0 else 5) < 60
          ∧ sk ≠ []
       then 60
       else min (min sk.length 10 * 8 + (if ed = [] then 0 else 5)
            + (if ex = [] then 0 else 5) + (if ce = [] then 0 else 5)) 100,
       []) ∧
    (score_resume sk ed ex ce).1 ≤ 100 ∧
    (sk ≠ [] → 60 ≤ (score_resume sk ed ex ce).1) ∧
    (score_resume sk ed ex ce).2 = [] := by
  have hbase : score_base sk ed ex ce =
      min sk.length 10 * 8 + (if ed = [] then 0 else 5)
        + (if ex = [] then 0 else 5) + (if ce = [] then 0 else 5) := by
    unfold score_base
    cases ed <;> cases ex <;> cases ce <;> simp
  have hsk : (¬ sk.isEmpty = true) ↔ sk ≠ [] := by cases sk <;> simp
  have heq : score_resume sk ed ex ce =
      (if score_base sk ed ex ce < 60 ∧ sk ≠ [] then 60
       else min (score_base sk ed ex ce) 100, []) := by
    show (min (if score_base sk ed ex ce < 60 ∧ ¬ sk.isEmpty then 60
            else score_base sk ed ex ce) 100, ([] : List (List Char))) = _
    by_cases h : score_base sk ed ex ce < 60 ∧ sk ≠ []
    · rw [if_pos ⟨h.1, hsk.mpr h.2⟩, if_pos h]
      decide
    · rw [if_neg (fun hc => h ⟨hc.1, hsk.mp hc.2⟩), if_neg h]
  have heq1 : (score_resume sk ed ex ce).1 =
      (if score_base sk ed ex ce < 60 ∧ sk ≠ [] then 60
       else min (score_base sk ed ex ce) 100) := by rw [heq]
  rw [hbase] at heq heq1
  refine ⟨heq, score_resume_fst_le sk ed ex ce, ?_, ?_⟩
  · intro h
    rw [heq1]
    by_cases hlt : min sk.length 10 * 8 + (if ed = [] then 0 else 5)
        + (if ex = [] then 0 else 5) + (if ce = [] then 0 else 5) < 60
    · rw [if_pos ⟨hlt, h⟩]
    · rw [if_neg (fun hc => hlt hc.1)]
      exact le_min (by omega) (by omega)
  · rw [heq]

/-- Claim C1 witness: with one skill and nothing else the score is at least
60 and the issues list is empty. -/
theorem C1_witness :
    60 ≤ (score_resume ["python".toList] [] [] []).1 ∧
    (score_resume ["python".toList] [] [] []).2 = [] := by
  have h := C1_score_resume_spec ["python".toList] [] [] []
  exact ⟨h.2.2.1 (by decide), h.2.2.2⟩

/-- Claim C2 is a code bug: the pattern of `extract_section_by_header` is
compiled with `re.DOTALL`, so the greedy filler `(?:.*\n){0,3}` consumes
through the last newline of the whole document.  On a text whose EDUCATION
section holds the line "Bachelor 1" followed by a PROJECTS terminator, the
function returns the line "Built app" from inside the PROJECTS section and
omits "Bachelor 1" — contradicting its own docstring ("Extract lines under a
section header until the next header or end of text") and the claim that no
content line before the first terminator is omitted. -/
theorem C2_section_regex_drops_lines :
    extract_section_by_header
      ("EDUCATION\nBachelor 1\nPROJECTS\nBuilt app".toList)
      ("EDUCATION".toList)
      ["CERTIFICATIONS".toList, "PROJECTS".toList,
       "KEY SKILLS AND TOOLS".toList, "CAREER OBJECTIVE".toList]
      = ["Built app".toList] ∧
    extract_section_by_header
      ("EDUCATION\nBachelor 1\nPROJECTS\nBuilt app".toList)
      ("EDUCATION".toList)
      ["CERTIFICATIONS".toList, "PROJECTS".toList,
       "KEY SKILLS AND TOOLS".toList, "CAREER OBJECTIVE".toList]
      ≠ ["Bachelor 1".toList] := by decide

/-- Claim C3: a vocabulary term appears in the skill matcher's result
exactly when its lowercase form occurs in the lowercased text, and the
result has no duplicates. -/
theorem C3_skill_match_iff (text : List Char) :
    (∀ term, term ∈ SKILL_SET →
      (term ∈ extract_skills text ↔
        containsSeq (term.map pyLower) (text.map pyLower) = true)) ∧
    (extract_skills text).Nodup := by
  constructor
  · intro term hterm
    simp only [extract_skills, List.mem_filter]
    exact ⟨fun h => h.2, fun h => ⟨hterm, h⟩⟩
  · simp only [extract_skills]
    exact List.Nodup.filter _ (by decide)

/-- Claim C3 witness: "python" is matched in a text containing "Python", and
that result has no duplicates. -/
theorem C3_witness :
    "python".toList ∈ extract_skills ("I use Python daily".toList) ∧
    (extract_skills ("I use Python daily".toList)).Nodup := by
  have h := C3_skill_match_iff ("I use Python daily".toList)
  exact ⟨(h.1 ("python".toList) (by decide)).mpr (by decide), h.2⟩

/-- Claim C4 is a code bug: the year pattern is written `r"(19|20)\\d{2}"`,
so the regex engine receives a literal backslash followed by two literal
letters d and can never match a real four-digit year.  The non-contact line
"Stanford 2020" of an EDUCATION section contains "2020" and no degree
keyword, yet the education output is empty — against the code's own comment
("Only include lines with degree, institution, or year patterns"). -/
theorem C4_year_rule_never_fires :
    extract_education ("EDUCATION\nStanford 2020".toList) = [] ∧
    containsSeq ("2020".toList) ("Stanford 2020".toList) = true ∧
    is_contact_info ("Stanford 2020".toList) = false ∧
    hasYearToken ("Stanford 2020".toList) = false := by decide

/-- Claim C5 counterexample: a line whose only content is a bare 7-digit run
is NOT flagged by the contact filter, because `\d[\d\- ]{7,}` needs a digit
followed by 7 further characters (8 in total); the claim asserts it is
flagged. -/
theorem C5_counterexample :
    is_contact_info ("1234567".toList) = false ∧
    ("1234567".toList).all Char.isDigit = true ∧
    ("1234567".toList).length = 7 := by decide

/-- Claim C5 as amended: the filter returns true exactly when the line
contains an `@`, the substring "linkedin" case-insensitively, a digit
followed by at least 7 digit/dash/space characters (at least 8 characters in
total, so a bare 7-digit run is not flagged), or the hardcoded name. -/
theorem C5_contact_filter_amended (line : List Char) :
    is_contact_info line = contact_amended line := by
  simp only [is_contact_info, contact_amended, hasPhoneRun_eq_digitRunAmended]

/-- Claim C6: every element of the education, experience and certifications
outputs derives from a section line on which the contact filter returned
false (flagged lines are skipped before any keyword test). -/
theorem C6_no_contact_in_output (text : List Char) :
    (∀ e, e ∈ extract_education text →
      ∃ l, l ∈ extract_section_by_header text ("EDUCATION".toList)
          ["CERTIFICATIONS".toList, "PROJECTS".toList,
           "KEY SKILLS AND TOOLS".toList, "CAREER OBJECTIVE".toList] ∧
        is_contact_info l = false ∧ e = pyStrip l) ∧
    (∀ e, e ∈ extract_experience text →
      ∃ l, l ∈ extract_section_by_header text ("PROJECTS".toList)
          ["EDUCATION".toList, "CERTIFICATIONS".toList,
           "KEY SKILLS AND TOOLS".toList, "CAREER OBJECTIVE".toList] ∧
        is_contact_info l = false ∧ e = pyStrip (dropBullets l)) ∧
    (∀ e, e ∈ extract_certifications text →
      ∃ l, l ∈ extract_section_by_header text ("CERTIFICATIONS".toList)
          ["EDUCATION".toList, "PROJECTS".toList,
           "KEY SKILLS AND TOOLS".toList, "CAREER OBJECTIVE".toList] ∧
        is_contact_info l = false ∧ e = pyStrip (dropBullets l)) := by
  refine ⟨fun e he => ?_, fun e he => ?_, fun e he => ?_⟩
  · unfold extract_education at he
    obtain ⟨l, hl, hc, _, hel⟩ := mem_extractor_filterMap _ _ _ _ he
    exact ⟨l, hl, hc, hel⟩
  · unfold extract_experience at he
    obtain ⟨l, hl, hc, _, hel⟩ := mem_extractor_filterMap _ _ _ _ he
    exact ⟨l, hl, hc, hel⟩
  · unfold extract_certifications at he
    obtain ⟨l, hl, hc, _, hel⟩ := mem_extractor_filterMap _ _ _ _ he
    exact ⟨l, hl, hc, hel⟩

/-- Claim C6 witness: the education line "Stanford University" derives from
an unflagged section line. -/
theorem C6_witness :
    ∃ l, l ∈ extract_section_by_header
        ("EDUCATION\nStanford University".toList) ("EDUCATION".toList)
        ["CERTIFICATIONS".toList, "PROJECTS".toList,
         "KEY SKILLS AND TOOLS".toList, "CAREER OBJECTIVE".toList] ∧
      is_contact_info l = false ∧ ("Stanford University".toList) = pyStrip l :=
  (C6_no_contact_in_output ("EDUCATION\nStanford University".toList)).1
    ("Stanford University".toList) (by decide)

/-- Claim C7 counterexample: the program iterates a Python `set`, whose
enumeration order is unspecified, so the output order is not guaranteed.
Under the equally legitimate iteration order that begins "java", "python"
(same set, first two elements exchanged), the text "Python, Java, SQL"
yields skills ["java","python","sql"], not the ["python","java","sql"] the
claim asserts. -/
theorem C7_counterexample :
    List.Perm SKILL_SET_swapped SKILL_SET ∧
    extract_skills_iter SKILL_SET_swapped ("Python, Java, SQL".toList)
      = ["java".toList, "python".toList, "sql".toList] ∧
    extract_skills_iter SKILL_SET_swapped ("Python, Java, SQL".toList)
      ≠ ["python".toList, "java".toList, "sql".toList] := by
  refine ⟨List.Perm.swap _ _ _, by decide, by decide⟩

/-- Claim C7 as amended: the skill matcher reports the matched vocabulary
terms in the set's iteration order — for every iteration order of the set
(any permutation of its elements) the result is a sublist of that order; on
the text "Python, Java, SQL" with no section headers the skills are exactly
python, java, sql up to that unspecified order (and exactly the list
["python","java","sql"] when the set iterates in the literal's written
order), education, experience and certifications are empty, and the score is
60.  The written-order instance is the `extract_skills` used by the
orchestrator. -/
theorem C7_skills_scan_order_amended (order : List (List Char))
    (text : List Char) (h : List.Perm order SKILL_SET) :
    List.Sublist (extract_skills_iter order text) order ∧
    List.Perm (extract_skills_iter order ("Python, Java, SQL".toList))
      ["python".toList, "java".toList, "sql".toList] ∧
    extract_skills_iter SKILL_SET ("Python, Java, SQL".toList)
      = ["python".toList, "java".toList, "sql".toList] ∧
    extract_education ("Python, Java, SQL".toList) = [] ∧
    extract_experience ("Python, Java, SQL".toList) = [] ∧
    extract_certifications ("Python, Java, SQL".toList) = [] ∧
    (score_resume (extract_skills_iter order ("Python, Java, SQL".toList))
      [] [] []).1 = 60 ∧
    extract_skills_iter SKILL_SET text = extract_skills text := by
  have hperm : List.Perm
      (extract_skills_iter order ("Python, Java, SQL".toList))
      ["python".toList, "java".toList, "sql".toList] := by
    have h1 := h.filter
      (fun skill => containsSeq (skill.map pyLower)
        (("Python, Java, SQL".toList).map pyLower))
    have h2 : extract_skills_iter SKILL_SET ("Python, Java, SQL".toList)
        = ["python".toList, "java".toList, "sql".toList] := by decide
    simp only [extract_skills_iter]
    simp only [extract_skills_iter] at h2
    rw [h2] at h1
    exact h1
  have hlen : (extract_skills_iter order ("Python, Java, SQL".toList)).length
      = 3 := by rw [hperm.length_eq]; rfl
  have key : ∀ s : List (List Char), s.length = 3 →
      (score_resume s [] [] []).1 = 60 := by
    intro s hs
    have hne : s.isEmpty = false := by
      cases s with
      | nil => simp at hs
      | cons a t => rfl
    have hb : score_base s [] [] [] = 24 := by
      unfold score_base
      rw [hs]
      decide
    show (min (if score_base s [] [] [] < 60 ∧ ¬ s.isEmpty then 60
        else score_base s [] [] []) 100) = 60
    rw [hb, hne, if_pos ⟨by norm_num, by simp⟩]
    decide
  refine ⟨?_, hperm, by decide, by decide, by decide, by decide,
    key _ hlen, rfl⟩
  simp only [extract_skills_iter]
  exact List.filter_sublist _

/-- Claim C7 witness: the amended statement instantiated at the written
iteration order of the set. -/
theorem C7_witness :
    List.Sublist (extract_skills_iter SKILL_SET ("Python, Java, SQL".toList))
      SKILL_SET ∧
    List.Perm (extract_skills_iter SKILL_SET ("Python, Java, SQL".toList))
      ["python".toList, "java".toList, "sql".toList] ∧
    (score_resume (extract_skills_iter SKILL_SET
      ("Python, Java, SQL".toList)) [] [] []).1 = 60 := by
  have h := C7_skills_scan_order_amended SKILL_SET
    ("Python, Java, SQL".toList) (List.Perm.refl _)
  exact ⟨h.1, h.2.1, h.2.2.2.2.2.2.1⟩

/-- Claim C8 counterexample: a kept experience line beginning with two
bullet markers loses both of them, because `line.lstrip('•')` strips every
leading bullet; the claim says exactly one is stripped and the second
retained. -/
theorem C8_counterexample :
    extract_experience ("PROJECTS\n••Developed an app".toList)
      = ["Developed an app".toList] ∧
    extract_experience ("PROJECTS\n••Developed an app".toList)
      ≠ ["•Developed an app".toList] := by decide

/-- Claim C8 as amended: every kept experience or certification line has ALL
leading bullet-marker characters stripped and is then trimmed; in
particular a line starting with two bullets loses both. -/
theorem C8_all_leading_bullets_stripped (text : List Char) :
    (∀ e, e ∈ extract_experience text → ∃ l, e = pyStrip (dropBullets l)) ∧
    (∀ e, e ∈ extract_certifications text → ∃ l, e = pyStrip (dropBullets l)) ∧
    dropBullets ("••Developed an app".toList) = "Developed an app".toList := by
  refine ⟨fun e he => ?_, fun e he => ?_, by decide⟩
  · unfold extract_experience at he
    obtain ⟨l, _, _, _, hel⟩ := mem_extractor_filterMap _ _ _ _ he
    exact ⟨l, hel⟩
  · unfold extract_certifications at he
    obtain ⟨l, _, _, _, hel⟩ := mem_extractor_filterMap _ _ _ _ he
    exact ⟨l, hel⟩

/-- Claim C8 witness: the kept line "Developed an app" arises as the
bullet-stripped trim of some section line. -/
theorem C8_witness :
    ∃ l, ("Developed an app".toList) = pyStrip (dropBullets l) :=
  (C8_all_leading_bullets_stripped ("PROJECTS\n••Developed an app".toList)).1
    ("Developed an app".toList) (by decide)

/-- Claim C9: the recommendations of an analysis come from the inline
recommendation step; that step yields the empty sequence on an empty skills
list, and otherwise exactly one string naming the first 3 matched skills
(fewer if fewer matched) joined by ", " and suggesting Software Development
roles. -/
theorem C9_recommendation_spec (text : List Char) :
    (analyze_resume text).recommendations
      = recommendation_of (extract_skills text) ∧
    (∀ skills : List (List Char),
      (skills = [] → recommendation_of skills = []) ∧
      (skills ≠ [] → recommendation_of skills =
        ["Based on your skills in ".toList
          ++ joinLC (", ".toList) (skills.take 3)
          ++ ", consider roles in Software Development".toList]) ∧
      (recommendation_of skills).length ≤ 1) := by
  refine ⟨rfl, fun skills => ⟨?_, ?_, ?_⟩⟩
  · intro h
    subst h
    rfl
  · intro h
    unfold recommendation_of
    rw [if_pos (List.length_pos.mpr h)]
  · unfold recommendation_of
    split_ifs <;> simp

/-- Claim C9 witness: concrete outputs for an empty and a one-element skills
list. -/
theorem C9_witness :
    recommendation_of [] = [] ∧
    recommendation_of ["sql".toList] =
      ["Based on your skills in sql, consider roles in Software Development".toList] := by
  constructor
  · exact ((C9_recommendation_spec []).2 []).1 rfl
  · have h := ((C9_recommendation_spec []).2 ["sql".toList]).2.1 (by decide)
    rw [h]
    decide

/-- Claim C10: the orchestrator is total — on every input it assembles
exactly the outputs of the component functions into a well-formed analysis
whose score is at most 100, and when every component finds nothing the result
is the all-empty analysis with score 0, not an error.  (The embedding of
every core operation is a total function: no operation in the pipeline has a
failure path to model.) -/
theorem C10_analyze_total (text : List Char) :
    analyze_resume text =
      { skills := extract_skills text, education := extract_education text,
        experience := extract_experience text,
        certifications := extract_certifications text,
        recommendations := recommendation_of (extract_skills text),
        score := (score_resume (extract_skills text) (extract_education text)
          (extract_experience text) (extract_certifications text)).1,
        issues := [] } ∧
    (analyze_resume text).score ≤ 100 ∧
    ((extract_skills text = [] ∧ extract_education text = [] ∧
      extract_experience text = [] ∧ extract_certifications text = []) →
      analyze_resume text =
        { skills := [], education := [], experience := [],
          certifications := [], recommendations := [], score := 0,
          issues := [] }) := by
  refine ⟨rfl, score_resume_fst_le _ _ _ _, ?_⟩
  rintro ⟨h1, h2, h3, h4⟩
  simp only [analyze_resume]
  rw [h1, h2, h3, h4]
  rfl

/-- Claim C10 witness: the empty text yields the all-empty analysis with
score 0. -/
theorem C10_witness :
    analyze_resume [] =
      { skills := [], education := [], experience := [], certifications := [],
        recommendations := [], score := 0, issues := [] } :=
  (C10_analyze_total []).2.2 (by decide)

end ResumeAnalyzer
